import Mathlib

/-!
Verification development for the rav1e encoder core.

The definitions below are a shallow embedding of the Rust sources:
  - src/lib.rs                      (header writing, write_b, search_best_mode,
                                     search_partition, write_sb, encode_tile)
  - src/tiling/plane_region.rs      (Rect, Area, PlaneRegion(Mut), subregion,
                                     RowsIter)
  - src/tiling/blocks_region.rs     (BlocksRegion(Mut), neighbor queries,
                                     range-fill writers, set_cdef/get_cdef)

Machine integers are modelled as Nat / Int with explicit reduction modulo
2^64 (usize / isize) where wrap-around matters.  A Rust function that can
panic (failed assertion, out-of-bounds index) is modelled as returning an
Option, with none standing for the panic.

Parts of the repository that the claims need but whose sources are not
available (context.rs, partition.rs, predict.rs, ec.rs) are modelled from
the specification; each such definition carries a doc comment starting
with "Modelled from the spec:".
-/

namespace Rav1e

/-- Size of the usize / isize machine word domain: the target is 64-bit. -/
def USIZE : Nat := 2 ^ 64

/-- Rust cast of a (possibly negative) isize value to usize: two's-complement
reinterpretation, i.e. reduction modulo 2^64. -/
def intToUsize (i : Int) : Nat := (i % (USIZE : Int)).toNat

/-- Rust cast of a usize value to isize: two's-complement reinterpretation. -/
def usizeToIsize (n : Nat) : Int :=
  if n < 2 ^ 63 then (n : Int) else (n : Int) - (USIZE : Int)

/-- Wrapping usize subtraction (release-mode Rust semantics); the arguments
are assumed to be below 2^64. -/
def usizeSub (a b : Nat) : Nat := (a + USIZE - b) % USIZE

/-- Test that an integer lies in the value range of isize. -/
def inIsize (i : Int) : Bool := -(2 ^ 63 : Int) ≤ i ∧ i < (2 ^ 63 : Int)

/-! ## Rect and Area (src/tiling/plane_region.rs) -/

/-- Block offset in MI (4x4) units (struct BlockOffset of context.rs, used
throughout the tiling sources). -/
structure BlockOffset where
  x : Nat
  y : Nat
deriving DecidableEq

/-- Rectangle with coordinates relative to the plane origin
(struct Rect, plane_region.rs lines 18-25). -/
structure Rect where
  x : Int
  y : Int
  width : Nat
  height : Nat
deriving DecidableEq

/-- Modelled from the spec: BLOCK_TO_PLANE_SHIFT of context.rs (not under
src/); a block is 4x4 samples, so block-to-sample conversion is a left
shift by 2. -/
def BLOCK_TO_PLANE_SHIFT : Nat := 2

/-- Flexible description of a subregion (enum Area, plane_region.rs
lines 52-64). -/
inductive Area where
  | rect (x y : Int) (width height : Nat)
  | startingAt (x y : Int)
  | blockRect (bo : BlockOffset) (width height : Nat)
  | blockStartingAt (bo : BlockOffset)
deriving DecidableEq

/-- Area::to_rect (plane_region.rs lines 66-95).  The BlockStartingAt arm
delegates to the StartingAt arm in the source; here the delegation is
inlined.  Casts follow Rust `as` semantics. -/
def Area.toRect (a : Area) (xdec ydec parentWidth parentHeight : Nat) : Rect :=
  match a with
  | .rect x y width height => ⟨x, y, width, height⟩
  | .startingAt x y =>
      ⟨x, y,
        intToUsize (usizeToIsize parentWidth - x),
        intToUsize (usizeToIsize parentHeight - y)⟩
  | .blockRect bo width height =>
      ⟨usizeToIsize (bo.x >>> xdec <<< BLOCK_TO_PLANE_SHIFT % USIZE),
        usizeToIsize (bo.y >>> ydec <<< BLOCK_TO_PLANE_SHIFT % USIZE),
        width, height⟩
  | .blockStartingAt bo =>
      let x := usizeToIsize (bo.x >>> xdec <<< BLOCK_TO_PLANE_SHIFT % USIZE)
      let y := usizeToIsize (bo.y >>> ydec <<< BLOCK_TO_PLANE_SHIFT % USIZE)
      ⟨x, y,
        intToUsize (usizeToIsize parentWidth - x),
        intToUsize (usizeToIsize parentHeight - y)⟩

/-- Well-formedness of an Area value: its isize components actually lie in
the isize range (guaranteed by the Rust type but not by the Int model). -/
def Area.wfb : Area → Bool
  | .rect x y _ _ => inIsize x && inIsize y
  | .startingAt x y => inIsize x && inIsize y
  | .blockRect _ _ _ => true
  | .blockStartingAt _ => true

/-- PlaneRegion::subregion / PlaneRegionMut::subregion_mut (plane_region.rs
lines 188-212 and 277-301; both bodies are generated from the same macro
text and are identical).  The function computes the relative rectangle,
checks the two offset assertions, and returns the absolute rectangle of
the new region; none models an assertion failure (panic). -/
def subregion (selfRect : Rect) (xdec ydec : Nat) (area : Area) : Option Rect :=
  let rect := area.toRect xdec ydec selfRect.width selfRect.height
  if 0 ≤ rect.x ∧ intToUsize rect.x ≤ selfRect.width
      ∧ 0 ≤ rect.y ∧ intToUsize rect.y ≤ selfRect.height then
    some ⟨selfRect.x + rect.x, selfRect.y + rect.y, rect.width, rect.height⟩
  else
    none

/-- The property asserted by claim C2 for one parent region and one area:
whenever subregion returns, the returned rectangle lies entirely inside the
parent rectangle (offsets non-negative, offset plus extent within the
parent extent). -/
def subregionInsideParent (selfRect : Rect) (xdec ydec : Nat) (area : Area) : Prop :=
  ∀ r : Rect, subregion selfRect xdec ydec area = some r →
    0 ≤ r.x - selfRect.x ∧ r.x - selfRect.x + (r.width : Int) ≤ (selfRect.width : Int)
    ∧ 0 ≤ r.y - selfRect.y ∧ r.y - selfRect.y + (r.height : Int) ≤ (selfRect.height : Int)

/-! ## Uncompressed header (src/lib.rs lines 213-266)

The bit writer is a model of bitstream_io BitWriter with the BE
endianness parameter: values are emitted most-significant-bit-first and
byte_align pads with zero bits to the next byte boundary.  The emitted
stream is modelled as the list of bits in emission order. -/

/-- Big-endian bit string of the lowest n bits of v, most significant bit
first (one BitWriter::write call). -/
def toBitsBE (n v : Nat) : List Bool :=
  (List.range n).map (fun i => v.testBit (n - 1 - i))

/-- Number of zero bits that byte_align appends to a stream of the given
bit length. -/
def alignPad (len : Nat) : Nat := (8 - len % 8) % 8

/-- BitWriter::byte_align: pad with zero bits to a whole byte. -/
def byteAlign (bits : List Bool) : List Bool :=
  bits ++ List.replicate (alignPad bits.length) false

/-- Frame type (src/lib.rs lines 117-122). -/
inductive FrameType where
  | KEY
  | INTER
  | INTRA_ONLY
  | S
deriving DecidableEq

/-- Frame invariants (src/lib.rs lines 83-92); usize fields as Nat. -/
structure FrameInvariants where
  qindex : Nat
  width : Nat
  height : Nat
  sb_width : Nat
  sb_height : Nat
  number : Nat
  ftype : FrameType
  show_existing_frame : Bool

/-- FrameInvariants::new (src/lib.rs lines 95-106). -/
def FrameInvariants.new (width height qindex : Nat) : FrameInvariants :=
  { qindex := qindex, width := width, height := height,
    sb_width := (width + 63) / 64, sb_height := (height + 63) / 64,
    number := 0, ftype := FrameType.KEY, show_existing_frame := false }

/-- write_uncompressed_header (src/lib.rs lines 213-266), translated write
by write; the result is the emitted bit string.  Casts `as u16` / `as u8`
are modelled by reduction mod 2^16 / 2^8, and the usize expression
fi.sb_width*64-1 by wrapping multiplication and subtraction.  The source's
`for _ in 0..1` loop over the cdef strength pair runs exactly once. -/
def write_uncompressed_header (profile : Nat) (fi : FrameInvariants) : List Bool :=
  let start := toBitsBE 2 2 ++ toBitsBE 2 profile
  if fi.show_existing_frame then
    byteAlign (start ++ [true] ++ toBitsBE 3 0)
  else
    byteAlign (start
      ++ [false]                                                -- show_existing_frame=0
      ++ [false]                                                -- keyframe
      ++ [true]                                                 -- show frame
      ++ [true]                                                 -- error resilient
      ++ toBitsBE 1 0                                           -- frame ids unused
      ++ toBitsBE 3 0                                           -- colorspace
      ++ toBitsBE 1 0                                           -- color range
      ++ toBitsBE 16 (usizeSub (fi.sb_width * 64 % USIZE) 1 % 2 ^ 16)   -- width
      ++ toBitsBE 16 (usizeSub (fi.sb_height * 64 % USIZE) 1 % 2 ^ 16)  -- height
      ++ [false]                                                -- scaling active
      ++ [false]                                                -- screen content tools
      ++ toBitsBE 3 0                                           -- frame context
      ++ toBitsBE 6 0                                           -- loop filter level
      ++ toBitsBE 3 0                                           -- loop filter sharpness
      ++ [false]                                                -- loop filter deltas
      ++ toBitsBE 8 (fi.qindex % 2 ^ 8)                         -- qindex
      ++ [false] ++ [false] ++ [false]                          -- dc/ac delta q
      ++ [false]                                                -- segmentation off
      ++ toBitsBE 2 0                                           -- cdef clpf damping
      ++ toBitsBE 2 0                                           -- cdef bits
      ++ (toBitsBE 7 0 ++ toBitsBE 7 0)                         -- cdef strengths
      ++ [false]                                                -- no delta q
      ++ toBitsBE 6 0                                           -- no loop restoration
      ++ [false]                                                -- tx mode select
      ++ toBitsBE 2 0                                           -- only 4x4 transforms
      ++ [true]                                                 -- reduced tx
      ++ (if usizeSub (fi.sb_width * 64 % USIZE) 1 > 256
          then toBitsBE 1 0 else [])                            -- tile cols
      ++ toBitsBE 1 0                                           -- tile rows
      ++ [true]                                                 -- loop filter across tiles
      ++ toBitsBE 2 0)                                          -- tile_size_bytes

/-- The header field sequence of the specification table (spec section 6),
written from the spec words: width field is the 16-bit value
(sb_width*64)-1, height (sb_height*64)-1, qindex the 8-bit qindex, the
1-bit tile_cols field present iff (sb_width*64)-1 > 256, then zero-padding
to a byte boundary. -/
def spec_header_bits (fi : FrameInvariants) : List Bool :=
  byteAlign (
    toBitsBE 2 2                               -- frame type
    ++ toBitsBE 2 0                            -- profile
    ++ toBitsBE 1 0                            -- show_existing_frame
    ++ toBitsBE 1 0                            -- keyframe flag
    ++ toBitsBE 1 1                            -- show_frame
    ++ toBitsBE 1 1                            -- error_resilient
    ++ toBitsBE 1 0                            -- use_frame_ids
    ++ toBitsBE 3 0                            -- colorspace
    ++ toBitsBE 1 0                            -- color_range
    ++ toBitsBE 16 (fi.sb_width * 64 - 1)      -- width-1
    ++ toBitsBE 16 (fi.sb_height * 64 - 1)     -- height-1
    ++ toBitsBE 1 0                            -- scaling
    ++ toBitsBE 1 0                            -- screen_content_tools
    ++ toBitsBE 3 0                            -- frame_context_idx
    ++ toBitsBE 6 0                            -- loop_filter_level
    ++ toBitsBE 3 0                            -- loop_filter_sharpness
    ++ toBitsBE 1 0                            -- lf_deltas_enabled
    ++ toBitsBE 8 fi.qindex                    -- qindex
    ++ toBitsBE 1 0 ++ toBitsBE 1 0 ++ toBitsBE 1 0  -- y_dc/uv_dc/uv_ac delta q
    ++ toBitsBE 1 0                            -- segmentation
    ++ toBitsBE 2 0                            -- cdef_damping
    ++ toBitsBE 2 0                            -- cdef_bits
    ++ toBitsBE 7 0                            -- cdef_y_strength
    ++ toBitsBE 7 0                            -- cdef_uv_strength
    ++ toBitsBE 1 0                            -- delta_q
    ++ toBitsBE 6 0                            -- loop_restoration
    ++ toBitsBE 1 0                            -- tx_mode_select
    ++ toBitsBE 2 0                            -- tx_mode
    ++ toBitsBE 1 1                            -- reduced_tx
    ++ (if fi.sb_width * 64 - 1 > 256 then toBitsBE 1 0 else [])  -- tile_cols
    ++ toBitsBE 1 0                            -- tile_rows
    ++ toBitsBE 1 1                            -- lf_across_tiles
    ++ toBitsBE 2 0)                           -- tile_size_bytes

/-! ## Block metadata grid (src/tiling/blocks_region.rs)

The Block struct and several enums live in context.rs / partition.rs,
which are not part of the available sources; their fields and values are
modelled from the spec (section 3, "Block") and from their uses in
blocks_region.rs. -/

/-- Modelled from the spec: the intra prediction mode set (spec section
4.5 / 4.8; enum PredictionMode of predict.rs is not under src/). -/
inductive PredictionMode where
  | DC_PRED
  | V_PRED
  | H_PRED
  | PAETH_PRED
  | SMOOTH_PRED
  | SMOOTH_V_PRED
  | SMOOTH_H_PRED
  | D45_PRED
  | D135_PRED
  | D117_PRED
  | D153_PRED
  | D207_PRED
  | D63_PRED
deriving DecidableEq

/-- Modelled from the spec: the fixed candidate list RAV1E_INTRA_MODES in
enumeration order (spec section 4.8 step 1). -/
def RAV1E_INTRA_MODES : List PredictionMode :=
  [PredictionMode.DC_PRED, PredictionMode.V_PRED, PredictionMode.H_PRED,
   PredictionMode.PAETH_PRED, PredictionMode.SMOOTH_PRED,
   PredictionMode.SMOOTH_V_PRED, PredictionMode.SMOOTH_H_PRED,
   PredictionMode.D45_PRED, PredictionMode.D135_PRED, PredictionMode.D117_PRED,
   PredictionMode.D153_PRED, PredictionMode.D207_PRED, PredictionMode.D63_PRED]

/-- Modelled from the spec: enum BlockSize of partition.rs (not under
src/), in AV1 declaration order up to the 64x64 superblock size; the
derived Rust PartialOrd compares declaration indices. -/
inductive BlockSize where
  | BLOCK_4X4
  | BLOCK_4X8
  | BLOCK_8X4
  | BLOCK_8X8
  | BLOCK_8X16
  | BLOCK_16X8
  | BLOCK_16X16
  | BLOCK_16X32
  | BLOCK_32X16
  | BLOCK_32X32
  | BLOCK_32X64
  | BLOCK_64X32
  | BLOCK_64X64
deriving DecidableEq

/-- Declaration index of a BlockSize value (the discriminant used by the
derived ordering). -/
def BlockSize.idx : BlockSize → Nat
  | .BLOCK_4X4 => 0
  | .BLOCK_4X8 => 1
  | .BLOCK_8X4 => 2
  | .BLOCK_8X8 => 3
  | .BLOCK_8X16 => 4
  | .BLOCK_16X8 => 5
  | .BLOCK_16X16 => 6
  | .BLOCK_16X32 => 7
  | .BLOCK_32X16 => 8
  | .BLOCK_32X32 => 9
  | .BLOCK_32X64 => 10
  | .BLOCK_64X32 => 11
  | .BLOCK_64X64 => 12

/-- Modelled from the spec: mi_size_wide / BlockSize::width_mi, the block
width in MI (4x4) units (spec: a semantic block of width W covers W/4
grid columns). -/
def BlockSize.width_mi : BlockSize → Nat
  | .BLOCK_4X4 => 1
  | .BLOCK_4X8 => 1
  | .BLOCK_8X4 => 2
  | .BLOCK_8X8 => 2
  | .BLOCK_8X16 => 2
  | .BLOCK_16X8 => 4
  | .BLOCK_16X16 => 4
  | .BLOCK_16X32 => 4
  | .BLOCK_32X16 => 8
  | .BLOCK_32X32 => 8
  | .BLOCK_32X64 => 8
  | .BLOCK_64X32 => 16
  | .BLOCK_64X64 => 16

/-- Modelled from the spec: mi_size_high / BlockSize::height_mi, the block
height in MI (4x4) units. -/
def BlockSize.height_mi : BlockSize → Nat
  | .BLOCK_4X4 => 1
  | .BLOCK_4X8 => 2
  | .BLOCK_8X4 => 1
  | .BLOCK_8X8 => 2
  | .BLOCK_8X16 => 4
  | .BLOCK_16X8 => 2
  | .BLOCK_16X16 => 4
  | .BLOCK_16X32 => 8
  | .BLOCK_32X16 => 4
  | .BLOCK_32X32 => 8
  | .BLOCK_32X64 => 16
  | .BLOCK_64X32 => 8
  | .BLOCK_64X64 => 16

/-- Modelled from the spec: enum PartitionType of partition.rs (not under
src/), AV1 declaration order. -/
inductive PartitionType where
  | PARTITION_NONE
  | PARTITION_HORZ
  | PARTITION_VERT
  | PARTITION_SPLIT
  | PARTITION_INVALID
deriving DecidableEq

/-- Modelled from the spec: transform sizes (enum TxSize of transform.rs,
not under src/); only TX_4X4 is exercised by the encoder core. -/
inductive TxSize where
  | TX_4X4
  | TX_8X8
  | TX_16X16
  | TX_32X32
deriving DecidableEq

/-- Modelled from the spec: reference-frame slot values (spec section 3:
two reference-frame slots per block). -/
inductive RefType where
  | NONE_FRAME
  | INTRA_FRAME
  | LAST_FRAME
  | GOLDEN_FRAME
  | ALTREF_FRAME
deriving DecidableEq

/-- Modelled from the spec: a motion vector (two components). -/
structure MotionVector where
  row : Int
  col : Int
deriving DecidableEq

/-- Modelled from the spec: struct Block of context.rs (not under src/);
its fields are those read and written by blocks_region.rs: mode, bsize,
n4_w, n4_h, txsize, skip, segmentation_idx, ref_frames, mv, cdef_index. -/
structure Block where
  mode : PredictionMode
  bsize : BlockSize
  n4_w : Nat
  n4_h : Nat
  txsize : TxSize
  skip : Bool
  segmentation_idx : Nat
  ref_frames : RefType × RefType
  mv : MotionVector × MotionVector
  cdef_index : Nat
deriving DecidableEq

/-- Grid of blocks indexed (row, column). -/
abbrev Grid := Nat → Nat → Block

/-- Update one cell of a grid with f. -/
def updGrid (g : Grid) (row col : Nat) (f : Block → Block) : Grid :=
  fun r c => if r = row ∧ c = col then f (g r c) else g r c

/-- Apply f to the w cells (row, x0), ..., (row, x0+w-1), in ascending
column order (the inner `for x in 0..bw` loop). -/
def rowFill (g : Grid) (row x0 : Nat) (f : Block → Block) : Nat → Grid
  | 0 => g
  | w + 1 => updGrid (rowFill g row x0 f w) row (x0 + w) f

/-- Apply f to the w-by-h footprint with top-left (y0, x0), rows in
ascending order (the outer `for y in 0..bh` loop). -/
def blockFill (g : Grid) (x0 y0 w : Nat) (f : Block → Block) : Nat → Grid
  | 0 => g
  | h + 1 => rowFill (blockFill g x0 y0 w f h) (y0 + h) x0 f w

/-- Mutable tiled view of FrameBlocks (struct BlocksRegionMut,
blocks_region.rs lines 32-42); the data pointer and stride are abstracted
into the logical cell grid, and (x, y) is the offset of the view in the
underlying FrameBlocks. -/
structure BlocksRegionMut where
  x : Nat
  y : Nat
  cols : Nat
  rows : Nat
  grid : Grid

/-- Indexing self[row][col] (blocks_region.rs lines 91-110 and 209-225):
the row index is asserted below rows, the slice access below cols; none
models the panic. -/
def BlocksRegionMut.cell? (st : BlocksRegionMut) (row col : Nat) : Option Block :=
  if row < st.rows then
    if col < st.cols then some (st.grid row col) else none
  else none

/-- BlocksRegionMut::above_of (blocks_region.rs lines 131-134): reads
self[bo.y - 1][bo.x] with wrapping usize subtraction. -/
def BlocksRegionMut.above_of (st : BlocksRegionMut) (bo : BlockOffset) : Option Block :=
  st.cell? (usizeSub bo.y 1) bo.x

/-- BlocksRegionMut::left_of (blocks_region.rs lines 136-139): reads
self[bo.y][bo.x - 1]. -/
def BlocksRegionMut.left_of (st : BlocksRegionMut) (bo : BlockOffset) : Option Block :=
  st.cell? bo.y (usizeSub bo.x 1)

/-- BlocksRegionMut::above_left_of (blocks_region.rs lines 141-144): reads
self[bo.y - 1][bo.x - 1]. -/
def BlocksRegionMut.above_left_of (st : BlocksRegionMut) (bo : BlockOffset) : Option Block :=
  st.cell? (usizeSub bo.y 1) (usizeSub bo.x 1)

/-- BlocksRegionMut::for_each (blocks_region.rs lines 146-157): applies f
to every cell of the width_mi-by-height_mi footprint at bo; the source
loop panics on the first out-of-bounds access, modelled here as none
(width_mi and height_mi are at least 1, so the bound check is equivalent). -/
def BlocksRegionMut.for_each (st : BlocksRegionMut) (bo : BlockOffset) (bsize : BlockSize)
    (f : Block → Block) : Option BlocksRegionMut :=
  if bo.y + bsize.height_mi ≤ st.rows ∧ bo.x + bsize.width_mi ≤ st.cols then
    some { st with grid := blockFill st.grid bo.x bo.y bsize.width_mi f bsize.height_mi }
  else none

/-- BlocksRegionMut::set_mode (blocks_region.rs lines 159-163). -/
def BlocksRegionMut.set_mode (st : BlocksRegionMut) (bo : BlockOffset) (bsize : BlockSize)
    (mode : PredictionMode) : Option BlocksRegionMut :=
  st.for_each bo bsize (fun block => { block with mode := mode })

/-- BlocksRegionMut::set_block_size (blocks_region.rs lines 165-169). -/
def BlocksRegionMut.set_block_size (st : BlocksRegionMut) (bo : BlockOffset)
    (bsize : BlockSize) : Option BlocksRegionMut :=
  let n4_w := bsize.width_mi
  let n4_h := bsize.height_mi
  st.for_each bo bsize (fun block => { block with bsize := bsize, n4_w := n4_w, n4_h := n4_h })

/-- BlocksRegionMut::set_tx_size (blocks_region.rs lines 171-173). -/
def BlocksRegionMut.set_tx_size (st : BlocksRegionMut) (bo : BlockOffset) (bsize : BlockSize)
    (tx_size : TxSize) : Option BlocksRegionMut :=
  st.for_each bo bsize (fun block => { block with txsize := tx_size })

/-- BlocksRegionMut::set_skip (blocks_region.rs lines 175-177). -/
def BlocksRegionMut.set_skip (st : BlocksRegionMut) (bo : BlockOffset) (bsize : BlockSize)
    (skip : Bool) : Option BlocksRegionMut :=
  st.for_each bo bsize (fun block => { block with skip := skip })

/-- BlocksRegionMut::set_segmentation_idx (blocks_region.rs lines 179-181). -/
def BlocksRegionMut.set_segmentation_idx (st : BlocksRegionMut) (bo : BlockOffset)
    (bsize : BlockSize) (idx : Nat) : Option BlocksRegionMut :=
  st.for_each bo bsize (fun block => { block with segmentation_idx := idx })

/-- BlocksRegionMut::set_ref_frames (blocks_region.rs lines 183-185). -/
def BlocksRegionMut.set_ref_frames (st : BlocksRegionMut) (bo : BlockOffset)
    (bsize : BlockSize) (r : RefType × RefType) : Option BlocksRegionMut :=
  st.for_each bo bsize (fun block => { block with ref_frames := r })

/-- BlocksRegionMut::set_motion_vectors (blocks_region.rs lines 187-189). -/
def BlocksRegionMut.set_motion_vectors (st : BlocksRegionMut) (bo : BlockOffset)
    (bsize : BlockSize) (mvs : MotionVector × MotionVector) : Option BlocksRegionMut :=
  st.for_each bo bsize (fun block => { block with mv := mvs })

/-- Modelled from the spec: MAX_MIB_SIZE of context.rs (not under src/), a
64x64 superblock in MI (4x4) units, i.e. 16. -/
def MAX_MIB_SIZE : Nat := 16

/-- Superblock offset in 64x64 units (struct SuperBlockOffset of
context.rs). -/
structure SuperBlockOffset where
  x : Nat
  y : Nat
deriving DecidableEq

/-- Modelled from the spec: SuperBlockOffset::block_offset of context.rs
(not under src/): the block offset of block (bx, by) inside the
superblock, i.e. the superblock coordinate shifted into MI units. -/
def SuperBlockOffset.block_offset (sbo : SuperBlockOffset) (bx by_ : Nat) : BlockOffset :=
  ⟨(sbo.x <<< 4) ||| bx, (sbo.y <<< 4) ||| by_⟩

/-- BlocksRegionMut::set_cdef (blocks_region.rs lines 191-201): fill
cdef_index over the superblock footprint, clipped to the region's
bottom-right corner.  The row range bo.y..bh with bh = min(bo.y +
MAX_MIB_SIZE, rows) is expressed by the fill height bh - bo.y (and
likewise for columns); every access is in bounds by the clipping, so the
function is total. -/
def BlocksRegionMut.set_cdef (st : BlocksRegionMut) (sbo : SuperBlockOffset)
    (cdef_index : Nat) : BlocksRegionMut :=
  let bo := sbo.block_offset 0 0
  let bw := min (bo.x + MAX_MIB_SIZE) st.cols
  let bh := min (bo.y + MAX_MIB_SIZE) st.rows
  { st with
    grid := blockFill st.grid bo.x bo.y (bw - bo.x)
      (fun block => { block with cdef_index := cdef_index }) (bh - bo.y) }

/-- BlocksRegionMut::get_cdef (blocks_region.rs lines 203-206): read the
cdef index at the superblock's top-left cell (panic modelled as none). -/
def BlocksRegionMut.get_cdef (st : BlocksRegionMut) (sbo : SuperBlockOffset) : Option Nat :=
  let bo := sbo.block_offset 0 0
  (st.cell? bo.y bo.x).map (fun block => block.cdef_index)

/-! ## Row iterators (src/tiling/plane_region.rs lines 324-383) -/

/-- RowsIter / RowsIterMut state (plane_region.rs lines 324-338): the data
pointer is abstracted as an offset into the plane storage. -/
structure RowsIter where
  dataOff : Nat
  stride : Nat
  width : Nat
  remaining : Nat
deriving DecidableEq

/-- RowsIter::next (plane_region.rs lines 343-354; RowsIterMut::next is
textually identical): if remaining > 0, yield the row at the current data
offset (modelled as offset and length) and advance the pointer by one
stride.  Note the source does not modify remaining. -/
def RowsIter.next (it : RowsIter) : Option (Nat × Nat) × RowsIter :=
  if 0 < it.remaining then
    (some (it.dataOff, it.width), { it with dataOff := it.dataOff + it.stride })
  else
    (none, it)

/-- RowsIter::size_hint (plane_region.rs lines 356-358). -/
def RowsIter.size_hint (it : RowsIter) : Nat × Option Nat :=
  (it.remaining, some it.remaining)

/-- PlaneRegion::rows_iter (plane_region.rs lines 153-161): an iterator
over rect.height rows of width rect.width, starting at the region's data
pointer (offset 0 of the view). -/
def rows_iter (stride : Nat) (rect : Rect) : RowsIter :=
  { dataOff := 0, stride := stride, width := rect.width, remaining := rect.height }

/-- Run the iterator n times, collecting the yielded rows. -/
def RowsIter.take (it : RowsIter) : Nat → List (Option (Nat × Nat))
  | 0 => []
  | n + 1 =>
    let step := it.next
    step.1 :: step.2.take n

/-! ## ContextWriter checkpoint / rollback (claim C1)

The ContextWriter aggregates the range coder (ec::Writer), the CDF tables
and the block context; ec.rs and context.rs are not under src/, so the
state and the checkpoint discipline are modelled from the spec
(sections 4.6 and 4.7). -/

/-- Modelled from the spec: the in-place mutated part of a ContextWriter
other than the emitted buffer: the range coder registers (low, range,
bits_left; spec section 4.6) plus the CDF tables and the block-context
strips (spec section 4.7), each abstracted as its byte contents. -/
structure CWCore where
  low : Nat
  range : Nat
  bitsLeft : Nat
  cdf : List Nat
  bc : List Nat
deriving DecidableEq

/-- Modelled from the spec: the full ContextWriter state: core registers
and tables plus the emitted byte buffer (append-only during symbol
writing). -/
structure ContextWriterState where
  core : CWCore
  buf : List Nat
deriving DecidableEq

/-- Modelled from the spec: the checkpoint snapshot: low, range,
bits_left, the emitted-buffer length, and copies of the cdf tables and
block-context strips (spec sections 4.6 and 4.7). -/
structure CWCheckpoint where
  low : Nat
  range : Nat
  bitsLeft : Nat
  bufLen : Nat
  cdf : List Nat
  bc : List Nat

/-- Modelled from the spec: one symbol-writing operation: it replaces the
core state as a function of the current core and appends bytes (computed
from the current core) to the emitted buffer; symbol writing never
removes emitted bytes. -/
structure SymbolOp where
  step : CWCore → CWCore
  emit : CWCore → List Nat

/-- Execute one symbol-writing operation on a ContextWriter. -/
def applyOp (cw : ContextWriterState) (op : SymbolOp) : ContextWriterState :=
  { core := op.step cw.core, buf := cw.buf ++ op.emit cw.core }

/-- Execute a sequence of symbol-writing operations in order. -/
def applyOps (cw : ContextWriterState) (S : List SymbolOp) : ContextWriterState :=
  S.foldl applyOp cw

/-- Modelled from the spec: ContextWriter::checkpoint (spec sections 4.6
and 4.7): snapshot (low, range, bits_left, emitted length) and copy the
cdf tables and block-context strips. -/
def cwCheckpoint (cw : ContextWriterState) : CWCheckpoint :=
  { low := cw.core.low, range := cw.core.range, bitsLeft := cw.core.bitsLeft,
    bufLen := cw.buf.length, cdf := cw.core.cdf, bc := cw.core.bc }

/-- Modelled from the spec: ContextWriter::rollback (spec sections 4.6 and
4.7): restore the register fields, cdf tables and block-context strips
from the snapshot and truncate the emitted buffer to its checkpointed
length. -/
def cwRollback (cw : ContextWriterState) (cp : CWCheckpoint) : ContextWriterState :=
  { core := { low := cp.low, range := cp.range, bitsLeft := cp.bitsLeft,
              cdf := cp.cdf, bc := cp.bc },
    buf := cw.buf.take cp.bufLen }

/-! ## Chroma block offset in write_b (claim C5) -/

/-- The base block offset for the U/V transform-block iteration as
computed by write_b (src/lib.rs lines 342-343): BlockOffset { x: bo.x >>
xdec, y: bo.x >> ydec }.  Note that the y component reads bo.x.  For the
chroma planes built by Frame::new (src/lib.rs lines 46-48), xdec = ydec =
1. -/
def write_b_uv_bo (bo : BlockOffset) (xdec ydec : Nat) : BlockOffset :=
  ⟨bo.x >>> xdec, bo.x >>> ydec⟩

/-- Modelled from the spec: the intended chroma offset derivation (spec
section 9, open questions: an implementer should use (bo.x >> xdec, bo.y
>> ydec)); each coordinate is decimated on its own axis. -/
def spec_uv_bo (bo : BlockOffset) (xdec ydec : Nat) : BlockOffset :=
  ⟨bo.x >>> xdec, bo.y >>> ydec⟩

/-! ## Partition and mode search (src/lib.rs lines 354-459)

search_best_mode computes for each candidate mode a rate-distortion cost
through the transform / quantize / entropy-coding pipeline (whose sources
are not under src/); the costs and the chosen modes are therefore
abstracted as an oracle, and the search control flow is translated from
the source.  f64 rd values are modelled as exact rationals (the f64 order
on the finite values that arise is a linear order); u64 rd_cost values
are Nat. -/

/-- The f64::MAX constant used to initialize best_rd in search_best_mode
(src/lib.rs line 363), as an exact rational: (2 - 2^-52) * 2^1023. -/
def F64MAX : ℚ := 2 ^ 1024 - 2 ^ 971

/-- One iteration of the mode loop of search_best_mode (src/lib.rs lines
368-384), given the rd cost each candidate mode would obtain: replace the
incumbent iff the candidate cost is strictly lower. -/
def bestModeStep (rdOf : PredictionMode → ℚ) (best : PredictionMode × ℚ)
    (mode : PredictionMode) : PredictionMode × ℚ :=
  if rdOf mode < best.2 then (mode, rdOf mode) else best

/-- The mode selection of search_best_mode (src/lib.rs lines 362-389):
fold the candidate list starting from (DC_PRED, f64::MAX). -/
def search_best_mode_select (rdOf : PredictionMode → ℚ) : PredictionMode × ℚ :=
  RAV1E_INTRA_MODES.foldl (bestModeStep rdOf) (PredictionMode.DC_PRED, F64MAX)

/-- First element of the list attaining the minimal cost: the selection
the spec describes ("strictly less-than comparisons keep the earlier
candidate on ties"), written from the spec words for comparison with the
source fold. -/
def firstArgmin (rdOf : PredictionMode → ℚ) : List PredictionMode → Option PredictionMode
  | [] => none
  | m :: l =>
    match firstArgmin rdOf l with
    | none => some m
    | some b => if rdOf b < rdOf m then some b else some m

/-- RDOOutput (rdo.rs, not under src/; fields as used by search_partition:
a u64 rd cost and the chosen prediction mode). -/
structure RDOOutput where
  rd_cost : Nat
  pred_mode : PredictionMode

/-- Oracle standing for search_best_mode as seen by search_partition: the
rd cost and best mode the mode search returns for a block. -/
def ModeSearchOracle := BlockSize → BlockOffset → RDOOutput

/-- The projection of the BlockContext state that search_partition
records decisions into: the per-offset mode cells written by
BlockContext::set_mode and the per-offset partition cells written by
BlockContext::set_partition (context.rs, not under src/; modelled from
the spec as plain maps).  ContextWriter::rollback restores the writer,
the cdf tables and the context strips but not these decision cells: the
source restores the mode cell explicitly (src/lib.rs line 437). -/
structure BCGrids where
  modeMap : BlockOffset → PredictionMode
  partMap : BlockOffset → PartitionType

/-- BlockContext::set_mode on the decision projection. -/
def BCGrids.setMode (g : BCGrids) (bo : BlockOffset) (m : PredictionMode) : BCGrids :=
  { g with modeMap := fun b => if b = bo then m else g.modeMap b }

/-- BlockContext::set_partition on the decision projection. -/
def BCGrids.setPartition (g : BCGrids) (bo : BlockOffset) (p : PartitionType) : BCGrids :=
  { g with partMap := fun b => if b = bo then p else g.partMap b }

/-- Modelled from the spec: get_subsize of partition.rs (not under src/):
for PARTITION_SPLIT a square block splits into four square quadrants of
half the side (spec section 4.8 step 2); other partition types leave the
size unchanged (unused by the embedded search). -/
def get_subsize (bsize : BlockSize) (p : PartitionType) : BlockSize :=
  match p with
  | .PARTITION_SPLIT =>
    match bsize with
    | .BLOCK_8X8 => .BLOCK_4X4
    | .BLOCK_16X16 => .BLOCK_8X8
    | .BLOCK_32X32 => .BLOCK_16X16
    | .BLOCK_64X64 => .BLOCK_32X32
    | other => other
  | _ => bsize

/-- search_partition (src/lib.rs lines 394-459), projected onto the
decision state (mode and partition cells) and the returned rd cost, with
search_best_mode abstracted by the oracle.  The source's
min_splitable_bsize is BLOCK_64X64 (line 412, the debugging setting), and
`bsize >= min_splitable_bsize` is the derived enum order, i.e. comparison
of declaration indices.  cw.checkpoint / cw.rollback (lines 415 and 429)
touch only the writer, cdf and context strips, hence are the identity on
this projection; the final write_sb (line 455) re-emits the recorded
decisions and does not change them. -/
def search_partition (oracle : ModeSearchOracle) (bsize : BlockSize) (bo : BlockOffset)
    (g : BCGrids) : Nat × BCGrids :=
  let rdo_none := oracle bsize bo
  let g1 := g.setMode bo rdo_none.pred_mode
  let hbs := bsize.width_mi >>> 1
  let square_blk := bsize.width_mi = bsize.height_mi
  if h : square_blk ∧ BlockSize.BLOCK_64X64.idx ≤ bsize.idx then
    let subsize := get_subsize bsize PartitionType.PARTITION_SPLIT
    let r0 := search_partition oracle subsize bo g1
    let r1 := search_partition oracle subsize ⟨bo.x + hbs, bo.y⟩ r0.2
    let r2 := search_partition oracle subsize ⟨bo.x, bo.y + hbs⟩ r1.2
    let r3 := search_partition oracle subsize ⟨bo.x + hbs, bo.y + hbs⟩ r2.2
    let rd_cost_sum := r0.1 + r1.1 + r2.1 + r3.1
    if rd_cost_sum < rdo_none.rd_cost then
      (rd_cost_sum, (r3.2.setPartition bo PartitionType.PARTITION_SPLIT))
    else
      let g2 := r3.2.setMode bo rdo_none.pred_mode
      (rdo_none.rd_cost, g2.setPartition bo PartitionType.PARTITION_NONE)
  else
    (rdo_none.rd_cost, g1.setPartition bo PartitionType.PARTITION_NONE)
termination_by bsize.idx
decreasing_by
  all_goals cases bsize
  all_goals first
    | exact absurd h.2 (by decide)
    | decide

/-! ## Concrete data used by witnesses and counterexamples -/

/-- A concrete block value. -/
def wBlock : Block :=
  { mode := PredictionMode.DC_PRED, bsize := BlockSize.BLOCK_4X4, n4_w := 1, n4_h := 1,
    txsize := TxSize.TX_4X4, skip := false, segmentation_idx := 0,
    ref_frames := (RefType.INTRA_FRAME, RefType.NONE_FRAME),
    mv := (⟨0, 0⟩, ⟨0, 0⟩), cdef_index := 0 }

/-- A concrete 5x5 blocks region whose cells all hold wBlock. -/
def wBlocks : BlocksRegionMut :=
  { x := 0, y := 0, cols := 5, rows := 5, grid := fun _ _ => wBlock }

/-- A concrete mode-search oracle: a 64x64 block costs 100, anything
smaller costs 10, so a four-way split (cost 40) beats PARTITION_NONE. -/
def wOracle : ModeSearchOracle := fun bsize _ =>
  if bsize = BlockSize.BLOCK_64X64 then ⟨100, PredictionMode.DC_PRED⟩
  else ⟨10, PredictionMode.DC_PRED⟩

/-- A concrete decision-state value. -/
def wGrids : BCGrids :=
  { modeMap := fun _ => PredictionMode.DC_PRED,
    partMap := fun _ => PartitionType.PARTITION_NONE }

/-! ## Helper lemmas -/

theorem two_pow_64_eq : (2 : Nat) ^ 64 = 18446744073709551616 := by norm_num

theorem USIZE_eq : USIZE = 18446744073709551616 := by norm_num [USIZE]

theorem usizeSub_one (n : Nat) (h1 : 1 ≤ n) (h2 : n < USIZE) : usizeSub n 1 = n - 1 := by
  rw [USIZE_eq] at h2
  unfold usizeSub
  rw [USIZE_eq]
  omega

theorem usizeSub_zero_one : usizeSub 0 1 = USIZE - 1 := by
  unfold usizeSub
  rw [USIZE_eq]

theorem applyOps_buf_append (S : List SymbolOp) (cw : ContextWriterState) :
    ∃ t, (applyOps cw S).buf = cw.buf ++ t := by
  induction S generalizing cw with
  | nil => exact ⟨[], by simp [applyOps]⟩
  | cons op S ih =>
    obtain ⟨t, ht⟩ := ih (applyOp cw op)
    refine ⟨op.emit cw.core ++ t, ?_⟩
    have : applyOps cw (op :: S) = applyOps (applyOp cw op) S := rfl
    rw [this, ht]
    simp [applyOp]

/-! ## Claim theorems -/

/-- C1: for every ContextWriter state cw and every sequence S of
symbol-writing operations, taking a checkpoint, applying S and rolling
back to the checkpoint restores cw exactly: the emitted buffer, the cdf
tables and the block-context strips are equal to their values before the
operations ran. -/
theorem C1_checkpoint_rollback (cw : ContextWriterState) (S : List SymbolOp) :
    cwRollback (applyOps cw S) (cwCheckpoint cw) = cw := by
  obtain ⟨t, ht⟩ := applyOps_buf_append S cw
  cases cw with
  | mk core buf =>
    cases core with
    | mk low range bitsLeft cdf bc =>
      simp only [cwRollback, cwCheckpoint]
      rw [ht]
      simp [List.take_left]

/-- C5: the chroma base block offset computed by write_b is (bo.x >> xdec,
bo.x >> ydec), not the intended (bo.x >> xdec, bo.y >> ydec): at bo =
(0, 4) with the 4:2:0 decimation xdec = ydec = 1 of the planes built by
Frame::new, the code produces (0, 0) while the per-axis derivation gives
(0, 2). -/
theorem C5_uv_bo_slip :
    write_b_uv_bo ⟨0, 4⟩ 1 1 = ⟨0, 0⟩
    ∧ spec_uv_bo ⟨0, 4⟩ 1 1 = ⟨0, 2⟩
    ∧ write_b_uv_bo ⟨0, 4⟩ 1 1 ≠ spec_uv_bo ⟨0, 4⟩ 1 1 := by
  decide

/-- C9: RowsIter::next never decrements remaining, so the iterator does
not terminate after rect.height rows: for a region of height 1 (width 4,
stride 8) three successive next() calls all yield rows (at offsets 0, 8,
16), and size_hint still reports 1 remaining row after the first call,
contradicting the claimed exact-size behavior. -/
theorem C9_rows_iter_never_terminates :
    (rows_iter 8 ⟨0, 0, 4, 1⟩).take 3 = [some (0, 4), some (8, 4), some (16, 4)]
    ∧ ((rows_iter 8 ⟨0, 0, 4, 1⟩).next).2.size_hint = (1, some 1) := by
  decide

theorem usizeToIsize_inIsize (n : Nat) (h : n < USIZE) : inIsize (usizeToIsize n) = true := by
  rw [USIZE_eq] at h
  unfold usizeToIsize inIsize
  rw [USIZE_eq]
  split_ifs with h1 <;> simp <;> omega

theorem toRect_offsets_inIsize (a : Area) (xdec ydec pw ph : Nat) (hwf : a.wfb = true) :
    inIsize (a.toRect xdec ydec pw ph).x = true ∧ inIsize (a.toRect xdec ydec pw ph).y = true := by
  cases a with
  | rect x y w h =>
    simp only [Area.wfb, Bool.and_eq_true] at hwf
    exact ⟨hwf.1, hwf.2⟩
  | startingAt x y =>
    simp only [Area.wfb, Bool.and_eq_true] at hwf
    exact ⟨hwf.1, hwf.2⟩
  | blockRect bo w h =>
    constructor <;> exact usizeToIsize_inIsize _ (Nat.mod_lt _ (by rw [USIZE_eq]; omega))
  | blockStartingAt bo =>
    constructor <;> exact usizeToIsize_inIsize _ (Nat.mod_lt _ (by rw [USIZE_eq]; omega))

theorem intToUsize_le (i : Int) (n : Nat) (h0 : 0 ≤ i) (h1 : inIsize i = true)
    (h : intToUsize i ≤ n) : i ≤ (n : Int) := by
  unfold inIsize at h1
  simp only [decide_eq_true_eq] at h1
  unfold intToUsize at h
  rw [Int.emod_eq_of_lt h0 (by rw [USIZE_eq]; omega)] at h
  omega

/-- C2 counterexample: the subregion assertions check only the offsets,
not the extents, so an Area whose resolved rectangle escapes the parent
bounds can still be returned: from a 10x10 parent region, the area
Rect{x:0, y:0, width:20, height:20} passes both assertions and yields a
20x20 subregion that is not inside the parent. -/
theorem C2_counterexample :
    ¬ subregionInsideParent ⟨0, 0, 10, 10⟩ 0 0 (Area.rect 0 0 20 20) := by
  intro h
  have h2 := h ⟨0, 0, 20, 20⟩ (by decide)
  exact absurd h2.2.1 (by decide)

/-- C2 amended: if subregion (or subregion_mut) returns without panicking,
the returned region's x and y offsets relative to the parent are
non-negative and do not exceed the parent's width and height respectively
(the extents are not checked); and whenever the resolved rectangle's
offsets escape those bounds, the call fails the assertion instead of
returning a region. -/
theorem C2_subregion_offsets_in_bounds (selfRect : Rect) (xdec ydec : Nat) (area : Area)
    (hwf : area.wfb = true) :
    (∀ r : Rect, subregion selfRect xdec ydec area = some r →
      0 ≤ r.x - selfRect.x ∧ r.x - selfRect.x ≤ (selfRect.width : Int)
      ∧ 0 ≤ r.y - selfRect.y ∧ r.y - selfRect.y ≤ (selfRect.height : Int))
    ∧ (¬ (0 ≤ (area.toRect xdec ydec selfRect.width selfRect.height).x
          ∧ intToUsize (area.toRect xdec ydec selfRect.width selfRect.height).x ≤ selfRect.width
          ∧ 0 ≤ (area.toRect xdec ydec selfRect.width selfRect.height).y
          ∧ intToUsize (area.toRect xdec ydec selfRect.width selfRect.height).y ≤ selfRect.height)
        → subregion selfRect xdec ydec area = none) := by
  have hx := toRect_offsets_inIsize area xdec ydec selfRect.width selfRect.height hwf
  constructor
  · intro r hr
    simp only [subregion] at hr
    split_ifs at hr with hcond
    · obtain ⟨hc1, hc2, hc3, hc4⟩ := hcond
      injection hr with hr
      subst hr
      refine ⟨by simpa using hc1, ?_, by simpa using hc3, ?_⟩
      · have := intToUsize_le _ _ hc1 hx.1 hc2
        simpa using this
      · have := intToUsize_le _ _ hc3 hx.2 hc4
        simpa using this
  · intro hcond
    unfold subregion
    rw [if_neg hcond]

/-- C10: the neighbor queries have unstated preconditions: above_of
requires bo.y >= 1, left_of requires bo.x >= 1, above_left_of requires
both; under these preconditions (and in-bounds coordinates) they return
the grid block at (bo.x, bo.y-1), (bo.x-1, bo.y) and (bo.x-1, bo.y-1)
respectively, and when a precondition is violated the wrapped-around
usize index fails the row or column bounds assertion (modelled as none)
instead of returning a block. -/
theorem C10_neighbor_preconditions (st : BlocksRegionMut) (bo : BlockOffset)
    (hrows : st.rows < USIZE) (hcols : st.cols < USIZE)
    (hy : bo.y < USIZE) (hx : bo.x < USIZE) :
    (1 ≤ bo.y → bo.y - 1 < st.rows → bo.x < st.cols →
      st.above_of bo = some (st.grid (bo.y - 1) bo.x))
    ∧ (bo.y = 0 → st.above_of bo = none)
    ∧ (1 ≤ bo.x → bo.y < st.rows → bo.x - 1 < st.cols →
      st.left_of bo = some (st.grid bo.y (bo.x - 1)))
    ∧ (bo.x = 0 → st.left_of bo = none)
    ∧ (1 ≤ bo.y → 1 ≤ bo.x → bo.y - 1 < st.rows → bo.x - 1 < st.cols →
      st.above_left_of bo = some (st.grid (bo.y - 1) (bo.x - 1)))
    ∧ (bo.y = 0 → st.above_left_of bo = none)
    ∧ (bo.x = 0 → st.above_left_of bo = none) := by
  have hbig : ¬ (USIZE - 1 < st.rows) := by rw [USIZE_eq] at *; omega
  have hbigc : ¬ (USIZE - 1 < st.cols) := by rw [USIZE_eq] at *; omega
  refine ⟨?_, ?_, ?_, ?_, ?_, ?_, ?_⟩
  · intro h1 h2 h3
    simp [BlocksRegionMut.above_of, BlocksRegionMut.cell?, usizeSub_one bo.y h1 hy, h2, h3]
  · intro h0
    simp [BlocksRegionMut.above_of, BlocksRegionMut.cell?, h0, usizeSub_zero_one, hbig]
  · intro h1 h2 h3
    simp [BlocksRegionMut.left_of, BlocksRegionMut.cell?, usizeSub_one bo.x h1 hx, h2, h3]
  · intro h0
    simp only [BlocksRegionMut.left_of, BlocksRegionMut.cell?, h0, usizeSub_zero_one]
    by_cases hb : bo.y < st.rows
    · rw [if_pos hb, if_neg hbigc]
    · rw [if_neg hb]
  · intro h1 h2 h3 h4
    simp [BlocksRegionMut.above_left_of, BlocksRegionMut.cell?,
      usizeSub_one bo.y h1 hy, usizeSub_one bo.x h2 hx, h3, h4]
  · intro h0
    simp [BlocksRegionMut.above_left_of, BlocksRegionMut.cell?, h0, usizeSub_zero_one, hbig]
  · intro h0
    simp only [BlocksRegionMut.above_left_of, BlocksRegionMut.cell?, h0, usizeSub_zero_one]
    by_cases hb : usizeSub bo.y 1 < st.rows
    · rw [if_pos hb, if_neg hbigc]
    · rw [if_neg hb]

theorem toBitsBE_one_zero : toBitsBE 1 0 = [false] := by decide

theorem toBitsBE_one_one : toBitsBE 1 1 = [true] := by decide

/-- C3: for show_existing_frame = false (and field values in the ranges
the driver guarantees), write_uncompressed_header emits exactly the
spec's header field sequence, most-significant-bit-first, zero-padded to
a byte boundary: the width field is the 16-bit value (sb_width*64)-1, the
height field (sb_height*64)-1, the qindex field the 8-bit qindex, and the
1-bit tile_cols field is present iff (sb_width*64)-1 > 256. -/
theorem C3_uncompressed_header (fi : FrameInvariants)
    (hshow : fi.show_existing_frame = false)
    (hw1 : 1 ≤ fi.sb_width) (hw2 : fi.sb_width * 64 ≤ 2 ^ 16)
    (hh1 : 1 ≤ fi.sb_height) (hh2 : fi.sb_height * 64 ≤ 2 ^ 16)
    (hq : fi.qindex < 2 ^ 8) :
    write_uncompressed_header 0 fi = spec_header_bits fi := by
  have h16 : (2 : Nat) ^ 16 = 65536 := by norm_num
  rw [h16] at hw2 hh2
  have hq8 : fi.qindex % 2 ^ 8 = fi.qindex := Nat.mod_eq_of_lt hq
  have ewm : fi.sb_width * 64 % USIZE = fi.sb_width * 64 :=
    Nat.mod_eq_of_lt (by rw [USIZE_eq]; omega)
  have ehm : fi.sb_height * 64 % USIZE = fi.sb_height * 64 :=
    Nat.mod_eq_of_lt (by rw [USIZE_eq]; omega)
  have ew : usizeSub (fi.sb_width * 64) 1 = fi.sb_width * 64 - 1 :=
    usizeSub_one _ (by omega) (by rw [USIZE_eq]; omega)
  have eh : usizeSub (fi.sb_height * 64) 1 = fi.sb_height * 64 - 1 :=
    usizeSub_one _ (by omega) (by rw [USIZE_eq]; omega)
  have ew16 : (fi.sb_width * 64 - 1) % 2 ^ 16 = fi.sb_width * 64 - 1 :=
    Nat.mod_eq_of_lt (by rw [h16]; omega)
  have eh16 : (fi.sb_height * 64 - 1) % 2 ^ 16 = fi.sb_height * 64 - 1 :=
    Nat.mod_eq_of_lt (by rw [h16]; omega)
  unfold write_uncompressed_header spec_header_bits
  rw [hshow]
  simp only [Bool.false_eq_true, if_false]
  rw [ewm, ehm, ew, eh, ew16, eh16, hq8]
  simp only [toBitsBE_one_zero, toBitsBE_one_one, List.append_assoc]

theorem rowFill_apply (g : Grid) (row x0 : Nat) (f : Block → Block) (w y x : Nat) :
    rowFill g row x0 f w y x =
      if y = row ∧ x0 ≤ x ∧ x < x0 + w then f (g y x) else g y x := by
  induction w with
  | zero =>
    simp only [rowFill]
    rw [if_neg (by omega)]
  | succ w ih =>
    simp only [rowFill, updGrid]
    rw [ih]
    split_ifs <;> first | rfl | (exfalso; omega)

theorem blockFill_apply (g : Grid) (x0 y0 w : Nat) (f : Block → Block) (h y x : Nat) :
    blockFill g x0 y0 w f h y x =
      if y0 ≤ y ∧ y < y0 + h ∧ x0 ≤ x ∧ x < x0 + w then f (g y x) else g y x := by
  induction h with
  | zero =>
    simp only [blockFill]
    rw [if_neg (by omega)]
  | succ h ih =>
    simp only [blockFill]
    rw [rowFill_apply, ih]
    split_ifs <;> first | rfl | (exfalso; omega)

theorem for_each_grid (st : BlocksRegionMut) (bo : BlockOffset) (bsize : BlockSize)
    {f : Block → Block} (i j : Nat) (hi : i < bsize.width_mi) (hj : j < bsize.height_mi)
    (hb : bo.y + bsize.height_mi ≤ st.rows ∧ bo.x + bsize.width_mi ≤ st.cols) :
    ((st.for_each bo bsize f).getD st).grid (bo.y + j) (bo.x + i)
      = f (st.grid (bo.y + j) (bo.x + i)) := by
  unfold BlocksRegionMut.for_each
  rw [if_pos hb]
  simp only [Option.getD_some]
  rw [blockFill_apply]
  rw [if_pos (by omega)]

theorem sb_block_offset_zero (sbo : SuperBlockOffset) :
    sbo.block_offset 0 0 = ⟨sbo.x * 16, sbo.y * 16⟩ := by
  simp [SuperBlockOffset.block_offset, Nat.shiftLeft_eq]

/-- C7: set_cdef writes cdef_index = v into exactly the grid cells (x, y)
with 16*sbo.x <= x < min(16*sbo.x + MAX_MIB_SIZE, cols) and 16*sbo.y <= y
< min(16*sbo.y + MAX_MIB_SIZE, rows) (the superblock's footprint clipped
to the region); every other cell and every other field is unchanged, the
region geometry is unchanged, and a subsequent get_cdef reads back the
value stored at the superblock's top-left cell. -/
theorem C7_set_cdef_footprint (st : BlocksRegionMut) (sbo : SuperBlockOffset) (v : Nat) :
    (∀ x y : Nat,
      (st.set_cdef sbo v).grid y x =
        if sbo.x * 16 ≤ x ∧ x < min (sbo.x * 16 + MAX_MIB_SIZE) st.cols
            ∧ sbo.y * 16 ≤ y ∧ y < min (sbo.y * 16 + MAX_MIB_SIZE) st.rows
          then { st.grid y x with cdef_index := v }
          else st.grid y x)
    ∧ ((st.set_cdef sbo v).cols = st.cols ∧ (st.set_cdef sbo v).rows = st.rows)
    ∧ (sbo.x * 16 < st.cols → sbo.y * 16 < st.rows →
        (st.set_cdef sbo v).get_cdef sbo = some v) := by
  have hgrid : ∀ x y : Nat,
      (st.set_cdef sbo v).grid y x =
        if sbo.x * 16 ≤ x ∧ x < min (sbo.x * 16 + MAX_MIB_SIZE) st.cols
            ∧ sbo.y * 16 ≤ y ∧ y < min (sbo.y * 16 + MAX_MIB_SIZE) st.rows
          then { st.grid y x with cdef_index := v }
          else st.grid y x := by
    intro x y
    simp only [BlocksRegionMut.set_cdef, sb_block_offset_zero]
    rw [blockFill_apply]
    split_ifs <;> first | rfl | (exfalso; omega)
  refine ⟨hgrid, ⟨rfl, rfl⟩, ?_⟩
  intro hxc hyr
  simp only [BlocksRegionMut.get_cdef, BlocksRegionMut.cell?, BlocksRegionMut.set_cdef,
    sb_block_offset_zero]
  rw [if_pos hyr, if_pos hxc]
  rw [blockFill_apply]
  rw [if_pos (by simp only [MAX_MIB_SIZE]; omega)]
  rfl

/-- C8: every range-fill writer (set_mode, set_block_size, set_tx_size,
set_skip, set_segmentation_idx, set_ref_frames, set_motion_vectors)
applied at bo with block size bsize writes the given value into its
target field in every one of the width_mi x height_mi cells of the
block's footprint. -/
theorem C8_range_fill_writers (st : BlocksRegionMut) (bo : BlockOffset) (bsize : BlockSize)
    (m : PredictionMode) (ts : TxSize) (sk : Bool) (sg : Nat)
    (r : RefType × RefType) (mvs : MotionVector × MotionVector)
    (i j : Nat) (hi : i < bsize.width_mi) (hj : j < bsize.height_mi)
    (hb : bo.y + bsize.height_mi ≤ st.rows ∧ bo.x + bsize.width_mi ≤ st.cols) :
    (((st.set_mode bo bsize m).getD st).grid (bo.y + j) (bo.x + i)).mode = m
    ∧ (((st.set_block_size bo bsize).getD st).grid (bo.y + j) (bo.x + i)).bsize = bsize
    ∧ (((st.set_block_size bo bsize).getD st).grid (bo.y + j) (bo.x + i)).n4_w = bsize.width_mi
    ∧ (((st.set_block_size bo bsize).getD st).grid (bo.y + j) (bo.x + i)).n4_h = bsize.height_mi
    ∧ (((st.set_tx_size bo bsize ts).getD st).grid (bo.y + j) (bo.x + i)).txsize = ts
    ∧ (((st.set_skip bo bsize sk).getD st).grid (bo.y + j) (bo.x + i)).skip = sk
    ∧ (((st.set_segmentation_idx bo bsize sg).getD st).grid (bo.y + j) (bo.x + i)).segmentation_idx = sg
    ∧ (((st.set_ref_frames bo bsize r).getD st).grid (bo.y + j) (bo.x + i)).ref_frames = r
    ∧ (((st.set_motion_vectors bo bsize mvs).getD st).grid (bo.y + j) (bo.x + i)).mv = mvs := by
  refine ⟨?_, ?_, ?_, ?_, ?_, ?_, ?_, ?_, ?_⟩ <;>
    simp only [BlocksRegionMut.set_mode, BlocksRegionMut.set_block_size,
      BlocksRegionMut.set_tx_size, BlocksRegionMut.set_skip,
      BlocksRegionMut.set_segmentation_idx, BlocksRegionMut.set_ref_frames,
      BlocksRegionMut.set_motion_vectors, for_each_grid st bo bsize i j hi hj hb]

theorem foldl_bestModeStep_firstArgmin (rdOf : PredictionMode → ℚ) (l : List PredictionMode) :
    ∀ b : PredictionMode × ℚ,
      List.foldl (bestModeStep rdOf) b l =
        match firstArgmin rdOf l with
        | none => b
        | some c => if rdOf c < b.2 then (c, rdOf c) else b := by
  induction l with
  | nil => intro b; rfl
  | cons m l ih =>
    intro b
    have step : List.foldl (bestModeStep rdOf) b (m :: l)
        = List.foldl (bestModeStep rdOf) (bestModeStep rdOf b m) l := rfl
    rw [step, ih]
    cases hfa : firstArgmin rdOf l with
    | none =>
      simp only [firstArgmin, hfa, bestModeStep]
    | some c =>
      simp only [firstArgmin, hfa, bestModeStep]
      by_cases h1 : rdOf m < b.2 <;> by_cases h2 : rdOf c < rdOf m <;>
        simp only [h1, h2, if_true, if_false, ite_true, ite_false] <;>
        first
          | rfl
          | rw [if_pos (by linarith)]
          | rw [if_neg (by linarith)]

theorem firstArgmin_mem (rdOf : PredictionMode → ℚ) (l : List PredictionMode)
    (c : PredictionMode) (h : firstArgmin rdOf l = some c) : c ∈ l := by
  induction l with
  | nil => exact absurd h (by simp [firstArgmin])
  | cons m l ih =>
    unfold firstArgmin at h
    cases hfa : firstArgmin rdOf l with
    | none =>
      rw [hfa] at h
      simp only at h
      injection h with h
      exact h ▸ List.mem_cons_self m l
    | some b =>
      rw [hfa] at h
      simp only at h
      split_ifs at h with hlt <;> injection h with h
      · exact List.mem_cons_of_mem m (ih (by rw [hfa, h]))
      · rw [← h]
        exact List.mem_cons_self m l

theorem firstArgmin_cons_some (rdOf : PredictionMode → ℚ) (m : PredictionMode)
    (l : List PredictionMode) : ∃ c, firstArgmin rdOf (m :: l) = some c := by
  unfold firstArgmin
  cases hfa : firstArgmin rdOf l with
  | none => exact ⟨m, rfl⟩
  | some b =>
    by_cases hlt : rdOf b < rdOf m
    · exact ⟨b, by simp only; rw [if_pos hlt]⟩
    · exact ⟨m, by simp only; rw [if_neg hlt]⟩

theorem search_partition_shape (oracle : ModeSearchOracle) (bsize : BlockSize)
    (bo : BlockOffset) (g : BCGrids) :
    (∃ (s : Nat) (g' : BCGrids), search_partition oracle bsize bo g
        = (s, g'.setPartition bo PartitionType.PARTITION_SPLIT)
      ∧ s < (oracle bsize bo).rd_cost)
    ∨ (∃ g' : BCGrids, search_partition oracle bsize bo g
        = ((oracle bsize bo).rd_cost,
            (g'.setMode bo (oracle bsize bo).pred_mode).setPartition bo
              PartitionType.PARTITION_NONE)) := by
  rw [search_partition.eq_def]
  simp only []
  split_ifs with hG hlt
  · exact Or.inl ⟨_, _, rfl, hlt⟩
  · exact Or.inr ⟨_, rfl⟩
  · exact Or.inr ⟨_, rfl⟩

/-- C6: candidate selection uses strictly-less-than comparisons, so ties
keep the earlier candidate: the mode fold of search_best_mode returns the
first mode of RAV1E_INTRA_MODES attaining the minimal rd cost (provided
every cost is below the f64::MAX initializer), and search_partition
records PARTITION_SPLIT only when the four-quadrant cost sum is strictly
below the PARTITION_NONE cost; whenever PARTITION_NONE is recorded
(in particular on an equal-cost tie) the returned cost is the
PARTITION_NONE cost and the PARTITION_NONE mode decision is restored into
the block grid at bo. -/
theorem C6_strict_tie_breaks (rdOf : PredictionMode → ℚ) (oracle : ModeSearchOracle)
    (bsize : BlockSize) (bo : BlockOffset) (g : BCGrids)
    (h : ∀ m ∈ RAV1E_INTRA_MODES, rdOf m < F64MAX) :
    some (search_best_mode_select rdOf).1 = firstArgmin rdOf RAV1E_INTRA_MODES
    ∧ ((search_partition oracle bsize bo g).2.partMap bo = PartitionType.PARTITION_SPLIT
        ∨ (search_partition oracle bsize bo g).2.partMap bo = PartitionType.PARTITION_NONE)
    ∧ ((search_partition oracle bsize bo g).2.partMap bo = PartitionType.PARTITION_SPLIT
        → (search_partition oracle bsize bo g).1 < (oracle bsize bo).rd_cost)
    ∧ ((search_partition oracle bsize bo g).2.partMap bo = PartitionType.PARTITION_NONE
        → (search_partition oracle bsize bo g).1 = (oracle bsize bo).rd_cost
          ∧ (search_partition oracle bsize bo g).2.modeMap bo = (oracle bsize bo).pred_mode) := by
  refine ⟨?_, ?_⟩
  · obtain ⟨c, hc⟩ := firstArgmin_cons_some rdOf PredictionMode.DC_PRED _
    have hmem := firstArgmin_mem rdOf _ c hc
    unfold search_best_mode_select
    rw [foldl_bestModeStep_firstArgmin]
    rw [show firstArgmin rdOf RAV1E_INTRA_MODES = some c from hc]
    simp [h c hmem]
  · rcases search_partition_shape oracle bsize bo g with ⟨s, g', heq, hlt⟩ | ⟨g', heq⟩
    · rw [heq]
      simp only [BCGrids.setPartition, BCGrids.setMode]
      refine ⟨Or.inl (by simp), fun _ => by simpa using hlt, fun habs => ?_⟩
      simp at habs
    · rw [heq]
      simp only [BCGrids.setPartition, BCGrids.setMode]
      exact ⟨Or.inr (by simp), fun habs => by simp at habs, fun _ => ⟨by trivial, by simp⟩⟩

/-- C4 counterexample: the recursion guard `bsize >= min_splitable_bsize`
holds at BLOCK_64X64 itself, so PARTITION_SPLIT is not disabled at the
superblock level: with a cost oracle under which a 64x64 block costs 100
and each 32x32 quadrant costs 10 (split sum 40 < 100), search_partition
records PARTITION_SPLIT at the superblock. -/
theorem C4_counterexample :
    (search_partition wOracle BlockSize.BLOCK_64X64 ⟨0, 0⟩ wGrids).2.partMap ⟨0, 0⟩
      = PartitionType.PARTITION_SPLIT := by
  simp [search_partition, wOracle, wGrids, get_subsize, BCGrids.setPartition,
    BCGrids.setMode, BlockSize.width_mi, BlockSize.height_mi, BlockSize.idx]

/-- C4 amended: with min_splitable_bsize = BLOCK_64X64 the split is tried
only at the superblock size: for every block size other than BLOCK_64X64,
search_partition does not recurse and returns the PARTITION_NONE result
(cost of the mode search, mode and PARTITION_NONE recorded at bo); and
whenever PARTITION_SPLIT is recorded, the four-quadrant sum was strictly
below the PARTITION_NONE cost. -/
theorem C4_split_only_at_64 (oracle : ModeSearchOracle) (bsize : BlockSize)
    (bo : BlockOffset) (g : BCGrids) :
    (bsize ≠ BlockSize.BLOCK_64X64 →
      search_partition oracle bsize bo g =
        ((oracle bsize bo).rd_cost,
          (g.setMode bo (oracle bsize bo).pred_mode).setPartition bo
            PartitionType.PARTITION_NONE))
    ∧ ((search_partition oracle bsize bo g).2.partMap bo = PartitionType.PARTITION_SPLIT
        → (search_partition oracle bsize bo g).1 < (oracle bsize bo).rd_cost) := by
  constructor
  · intro hb
    cases bsize <;> first
      | exact absurd rfl hb
      | simp [search_partition, BlockSize.idx, BlockSize.width_mi, BlockSize.height_mi]
  · rcases search_partition_shape oracle bsize bo g with ⟨s, g', heq, hlt⟩ | ⟨g', heq⟩
    · rw [heq]
      intro hsp
      simpa using hlt
    · rw [heq]
      intro habs
      simp [BCGrids.setPartition] at habs

/-- C4 witness: at BLOCK_8X8 (below the 64x64 threshold) the concrete
oracle yields the PARTITION_NONE result. -/
theorem C4_witness :
    search_partition wOracle BlockSize.BLOCK_8X8 ⟨0, 0⟩ wGrids =
      ((wOracle BlockSize.BLOCK_8X8 ⟨0, 0⟩).rd_cost,
        (wGrids.setMode ⟨0, 0⟩ (wOracle BlockSize.BLOCK_8X8 ⟨0, 0⟩).pred_mode).setPartition
          ⟨0, 0⟩ PartitionType.PARTITION_NONE) :=
  (C4_split_only_at_64 wOracle BlockSize.BLOCK_8X8 ⟨0, 0⟩ wGrids).1 (by decide)

/-- C2 witness: a subregion obtained from the 10x10 parent at starting
offset (2, 3) has in-bounds offsets. -/
theorem C2_witness :
    (0 : Int) ≤ 2 - 0 ∧ (2 : Int) - 0 ≤ ((10 : Nat) : Int)
    ∧ (0 : Int) ≤ 3 - 0 ∧ (3 : Int) - 0 ≤ ((10 : Nat) : Int) :=
  (C2_subregion_offsets_in_bounds ⟨0, 0, 10, 10⟩ 0 0 (Area.startingAt 2 3) (by decide)).1
    ⟨2, 3, 8, 7⟩ (by decide)

/-- C3 witness: the header of a 128x64 frame at qindex 100 matches the
spec field sequence. -/
theorem C3_witness :
    write_uncompressed_header 0 (FrameInvariants.new 128 64 100)
      = spec_header_bits (FrameInvariants.new 128 64 100) :=
  C3_uncompressed_header _ rfl (by decide) (by decide) (by decide) (by decide) (by decide)

/-- C6 witness: with all-equal costs the fold returns the first minimal
candidate. -/
theorem C6_witness :
    some (search_best_mode_select fun _ => (1 : ℚ)).1
      = firstArgmin (fun _ => (1 : ℚ)) RAV1E_INTRA_MODES :=
  (C6_strict_tie_breaks (fun _ => (1 : ℚ)) wOracle BlockSize.BLOCK_8X8 ⟨0, 0⟩ wGrids
    (by intro m hm; norm_num [F64MAX])).1

/-- C7 witness: after set_cdef on the concrete region, get_cdef reads the
stored index back from the superblock's top-left cell. -/
theorem C7_witness :
    (wBlocks.set_cdef ⟨0, 0⟩ 7).get_cdef ⟨0, 0⟩ = some 7 :=
  (C7_set_cdef_footprint wBlocks ⟨0, 0⟩ 7).2.2 (by decide) (by decide)

/-- C8 witness: set_mode writes the mode into an interior footprint cell
of the concrete region. -/
theorem C8_witness :
    (((wBlocks.set_mode ⟨1, 1⟩ BlockSize.BLOCK_8X8 PredictionMode.V_PRED).getD wBlocks).grid
        (1 + 1) (1 + 1)).mode = PredictionMode.V_PRED :=
  (C8_range_fill_writers wBlocks ⟨1, 1⟩ BlockSize.BLOCK_8X8 PredictionMode.V_PRED
    TxSize.TX_4X4 false 0 (RefType.LAST_FRAME, RefType.NONE_FRAME) (⟨0, 0⟩, ⟨0, 0⟩)
    1 1 (by decide) (by decide) (by decide)).1

/-- C10 witness: above_of at (1, 1) on the concrete region returns the
block directly above. -/
theorem C10_witness :
    wBlocks.above_of ⟨1, 1⟩ = some (wBlocks.grid (1 - 1) 1) :=
  (C10_neighbor_preconditions wBlocks ⟨1, 1⟩ (by decide) (by decide) (by decide)
    (by decide)).1 (by decide) (by decide) (by decide)

end Rav1e
